import Mathlib

/-!
Shallow embedding of the relay action coordinator and MQTT session manager
of `IotWebConf07MqttRelay.ino` (ESP-01 MQTT relay).

Modelling conventions:

* The C globals `state`, `needAction`, `lastAction`, `needMqttConnect`,
  `lastMqttConnectionAttempt` become fields of a state record `St`.
* `int` values are `Int` (`HIGH = 1`, `LOW = 0`, `NO_ACTION = -1`,
  `FLASH_ACTION = -2`); `unsigned long` timestamps are `Nat` holding the
  unwrapped monotonic time, and every subtraction the C code performs on
  `unsigned long` is modelled by `usub`, which reduces both operands
  mod 2^32 and subtracts with 32-bit wrap-around, exactly as the target's
  32-bit `unsigned long` arithmetic does.
* MQTT publishes are recorded as a list of `Pub` events (topic, payload,
  retain flag, QoS); `mqttClient.publish(topic, payload)` without explicit
  flags uses the arduino-mqtt defaults retain = false, QoS 0.
* The environment (Wi-Fi state, broker, inbound messages, millis() reads,
  button level) is an oracle `TickIn` supplied to each `loop()` iteration.
* The `needReset` reboot path ends the process (hard restart); a modelled
  run covers one process lifetime, so it is not part of the step function.
  The LED blink calls and `digitalWrite` (pure hardware side effects
  mirroring `state`) and the `subscribe` call are not observed by any claim
  and are not recorded.
-/

namespace MqttRelay

/-- `HIGH` pin level (ESP8266 Arduino core). -/
def HIGH : Int := 1

/-- `LOW` pin level. -/
def LOW : Int := 0

/-- `#define NO_ACTION -1` -/
def NO_ACTION : Int := -1

/-- `#define FLASH_ACTION -2` -/
def FLASH_ACTION : Int := -2

/-- `#define ACTION_FREQ_LIMIT 7000` -/
def ACTION_FREQ_LIMIT : Nat := 7000

/-- `#define MQTT_CONNECT_FREQ_LIMIT 2000` -/
def MQTT_CONNECT_FREQ_LIMIT : Nat := 2000

/-- `#define MQTT_TOPIC_PREFIX "devices/"` -/
def MQTT_TOPIC_PREFIX : String := "devices/"

/-- 2^32, the modulus of the target's 32-bit `unsigned long`. -/
def U32 : Nat := 4294967296

/-- `String.endsWith` (suffix test), phrased over the character list so
that concrete instances evaluate inside the kernel. -/
def strEndsWith (t suf : String) : Bool := suf.data.isSuffixOf t.data

/-- Truncation to the first `n` characters (the effect of copying into a
fixed `char` buffer of `n + 1` bytes for ASCII data). -/
def strTake (s : String) (n : Nat) : String := String.mk (s.data.take n)

/-- `'0' + d` for a decimal digit `d`. -/
def digitChar (d : Nat) : Char := Char.ofNat (48 + d)

/-- Decimal digits of `n`, most significant first (`fuel` bounds the
recursion; callers pass `n + 1`, which always suffices). -/
def natDigits : Nat → Nat → List Char
  | 0, _ => []
  | fuel + 1, n =>
    if n < 10 then [digitChar n]
    else natDigits fuel (n / 10) ++ [digitChar (n % 10)]

/-- Decimal rendering of an `int`, as `printf("%d", i)` produces. -/
def intToStr (i : Int) : String :=
  if i < 0 then "-" ++ String.mk (natDigits (i.natAbs + 1) i.natAbs)
  else String.mk (natDigits (i.natAbs + 1) i.natAbs)

/-- 32-bit unsigned subtraction `a - b` as C computes it on `unsigned long`
(operands reduced mod 2^32, wrap-around difference). -/
def usub (a b : Nat) : Nat := (U32 + a % U32 - b % U32) % U32

/-- Configuration values the core consumes (validated by the provisioning
subsystem before the core sees them): thing name, reported IP address,
`flashDuration`, `mqttQoS`, `mqttRetain`, and whether the build has the
push button compiled in (`BUTTON_PIN` is `#undef`-ed when set to -1,
as the ESP-01 platformio environment does). -/
structure Config where
  thingName : String
  ip : String
  flashDuration : Int
  mqttQoS : Int
  mqttRetain : Bool
  hasButton : Bool
deriving DecidableEq, Repr

/-- `mqttStatusTopic`: `MQTT_TOPIC_PREFIX + thingName + "/status"`,
truncated by `toCharArray(buf, STRING_LEN)` to 127 characters. -/
def mqttStatusTopic (cfg : Config) : String :=
  strTake (MQTT_TOPIC_PREFIX ++ cfg.thingName ++ "/status") 127

/-- `mqttActionTopic`: `MQTT_TOPIC_PREFIX + thingName + "/action"`,
truncated to 127 characters. -/
def mqttActionTopic (cfg : Config) : String :=
  strTake (MQTT_TOPIC_PREFIX ++ cfg.thingName ++ "/action") 127

/-- One MQTT publish performed by the program. -/
structure Pub where
  topic : String
  payload : String
  retain : Bool
  qos : Int
deriving DecidableEq, Repr

/-- The mutable globals of the core. -/
structure St where
  /-- `int state = LOW;` — the relay state. -/
  state : Int
  /-- `int needAction = NO_ACTION;` — the pending-action slot. -/
  needAction : Int
  /-- `unsigned long lastAction = 0;` — last-commit timestamp. -/
  lastAction : Nat
  /-- `bool needMqttConnect = false;` -/
  needMqttConnect : Bool
  /-- `unsigned long lastMqttConnectionAttempt = 0;` -/
  lastMqttConnectionAttempt : Nat
deriving DecidableEq, Repr

/-- Global initializers (boot state). -/
def initSt : St :=
  { state := LOW
    needAction := NO_ACTION
    lastAction := 0
    needMqttConnect := false
    lastMqttConnectionAttempt := 0 }

/-- Payload `state == HIGH ? "ON" : "OFF"`. -/
def stateText (state : Int) : String := if state = HIGH then "ON" else "OFF"

/-- `report()`: publish the current state to the status topic with the
configured retain flag and QoS (`PUBLISH_ON_ACTION_TOPIC` is not defined). -/
def reportPub (cfg : Config) (s : St) : Pub :=
  { topic := mqttStatusTopic cfg
    payload := stateText s.state
    retain := cfg.mqttRetain
    qos := cfg.mqttQoS }

/-- The `snprintf` greeting `connectMqtt` publishes on success
(`"HELLO ip=%s flash=%d QoS=%d retain=%s"`, buffer of `STRING_LEN = 128`
so at most 127 characters are kept). -/
def helloPayload (cfg : Config) : String :=
  strTake ("HELLO ip=" ++ cfg.ip ++ " flash=" ++ intToStr cfg.flashDuration ++
    " QoS=" ++ intToStr cfg.mqttQoS ++
    " retain=" ++ (if cfg.mqttRetain then "true" else "false")) 127

/-- The greeting publish in `connectMqtt`: `mqttClient.publish(mqttStatusTopic, buf)`
(library defaults: retain false, QoS 0). -/
def helloPub (cfg : Config) : Pub :=
  { topic := mqttStatusTopic cfg
    payload := helloPayload cfg
    retain := false
    qos := 0 }

/-- `setState(newState)`: set `state`, drive the pin, clear `needAction`,
then `report()` (so the publish reflects the new state). -/
def setState (cfg : Config) (s : St) (newState : Int) : St × List Pub :=
  let s1 : St := { s with state := newState, needAction := NO_ACTION }
  (s1, [reportPub cfg s1])

/-- The `if/else if` command chain of `mqttMessageReceived`: `ON`, `OFF`,
`TOGGLE`, `FLASH` set `needAction` (case-sensitive exact match), `REPORT`
calls `report()` at once, anything else falls through. -/
def dispatchCmd (cfg : Config) (s : St) (payload : String) : St × List Pub :=
  if payload = "ON" then ({ s with needAction := HIGH }, ([] : List Pub))
  else if payload = "OFF" then ({ s with needAction := LOW }, [])
  else if payload = "TOGGLE" then ({ s with needAction := 1 - s.state }, [])
  else if payload = "FLASH" then ({ s with needAction := FLASH_ACTION }, [])
  else if payload = "REPORT" then (s, [reportPub cfg s])
  else (s, [])

/-- `mqttMessageReceived(topic, payload)`: decode a plaintext command on a
topic ending in `"action"`; after the command dispatch, a pending
`needAction` equal to `state` is discarded (`needAction = NO_ACTION`). -/
def mqttMessageReceived (cfg : Config) (s : St) (topic payload : String) :
    St × List Pub :=
  if strEndsWith topic "action" then
    if (dispatchCmd cfg s payload).1.needAction = (dispatchCmd cfg s payload).1.state then
      ({ (dispatchCmd cfg s payload).1 with needAction := NO_ACTION },
        (dispatchCmd cfg s payload).2)
    else dispatchCmd cfg s payload
  else (s, [])

/-- Environment oracle for one `loop()` iteration: whether the
`wifiConnected` callback fired inside `doLoop`, the inbound messages
`mqttClient.loop()` delivers, the first `millis()` read `now1`, the Wi-Fi
online flag, `mqttClient.connected()`, whether `mqttClient.connect`
succeeds if attempted, the second `millis()` read `now2`, and the button
level read. -/
structure TickIn where
  wifiConnEvt : Bool
  msgs : List (String × String)
  now1 : Nat
  online : Bool
  mqttConnected : Bool
  connectSuccess : Bool
  now2 : Nat
  buttonLow : Bool
deriving DecidableEq, Repr

/-- Deliver the tick's inbound messages in order (callbacks fired from
`mqttClient.loop()`). -/
def deliverMsgs (cfg : Config) : St → List (String × String) → St × List Pub
  | s, [] => (s, [])
  | s, m :: ms =>
    let (s1, p1) := mqttMessageReceived cfg s m.1 m.2
    let (s2, p2) := deliverMsgs cfg s1 ms
    (s2, p1 ++ p2)

/-- The reconnect guard in `loop()`:
`(needMqttConnect || (online && !connected)) && now - lastMqttConnectionAttempt > MQTT_CONNECT_FREQ_LIMIT`. -/
def attemptGuard (s : St) (i : TickIn) : Prop :=
  (s.needMqttConnect = true ∨ (i.online = true ∧ i.mqttConnected = false)) ∧
    MQTT_CONNECT_FREQ_LIMIT < usub i.now1 s.lastMqttConnectionAttempt

instance (s : St) (i : TickIn) : Decidable (attemptGuard s i) := by
  unfold attemptGuard; exact inferInstance

/-- The MQTT (re)connect section of `loop()`: when the guard holds, record
the attempt timestamp and call `connectMqtt`; on success `connectMqtt`
subscribes, publishes the HELLO greeting then `report()`, and the caller
clears `needMqttConnect`. -/
def connectPhase (cfg : Config) (s : St) (i : TickIn) : St × List Pub :=
  if attemptGuard s i then
    let s1 : St := { s with lastMqttConnectionAttempt := i.now1 }
    if i.connectSuccess then
      ({ s1 with needMqttConnect := false }, [helloPub cfg, reportPub cfg s1])
    else (s1, [])
  else (s, [])

/-- The button-sampling section of `loop()` (compiled only when
`BUTTON_PIN` is defined): a held button past the debounce window requests
the inverted state. -/
def buttonPhase (cfg : Config) (s : St) (i : TickIn) : St :=
  if cfg.hasButton ∧ i.buttonLow = true ∧
      ACTION_FREQ_LIMIT < usub i.now2 s.lastAction then
    { s with needAction := 1 - s.state }
  else s

/-- The commit section of `loop()`: with a pending action and the debounce
window strictly elapsed, apply it (`setState` for `needAction >= 0`,
ON-pulse-OFF for `FLASH_ACTION`) and set `lastAction = now` (the
pre-pulse `millis()` read). -/
def commitPhase (cfg : Config) (s : St) (now : Nat) : St × List Pub :=
  if s.needAction ≠ NO_ACTION ∧ ACTION_FREQ_LIMIT < usub now s.lastAction then
    let (s1, pubs) :=
      if 0 ≤ s.needAction then setState cfg s s.needAction
      else if s.needAction = FLASH_ACTION then
        let (sa, pa) := setState cfg s HIGH
        let (sb, pb) := setState cfg sa LOW
        (sb, pa ++ pb)
      else (s, [])
    ({ s1 with lastAction := now }, pubs)
  else (s, [])

/-- The effect of `iotWebConf.doLoop()` on the core state: the
`wifiConnected` callback (when it fires this tick) sets `needMqttConnect`. -/
def wifiSt (s : St) (i : TickIn) : St :=
  if i.wifiConnEvt then { s with needMqttConnect := true } else s

/-- One `loop()` iteration: `doLoop` (possible `wifiConnected` callback
setting `needMqttConnect`), `mqttClient.loop()` message delivery, the
reconnect section at `now1`, then at `now2` the button sample and the
commit section. Returns the next state and the publishes in order. -/
def loopTick (cfg : Config) (s : St) (i : TickIn) : St × List Pub :=
  let (s1, p1) := deliverMsgs cfg (wifiSt s i) i.msgs
  let (s2, p2) := connectPhase cfg s1 i
  let s3 := buttonPhase cfg s2 i
  let (s4, p3) := commitPhase cfg s3 i.now2
  (s4, p1 ++ p2 ++ p3)

/-- The core state at the reconnect check of a tick (after `doLoop` and
message delivery). -/
def preConnectSt (cfg : Config) (s : St) (i : TickIn) : St :=
  (deliverMsgs cfg (wifiSt s i) i.msgs).1

/-- The core state after the reconnect section of a tick. -/
def postConnectSt (cfg : Config) (s : St) (i : TickIn) : St :=
  (connectPhase cfg (preConnectSt cfg s i) i).1

/-- The core state at the commit check of a tick (after the button
sample). -/
def preCommitSt (cfg : Config) (s : St) (i : TickIn) : St :=
  buttonPhase cfg (postConnectSt cfg s i) i

/-- States the process can be in: the boot state and everything one
`loop()` iteration reaches from a reachable state. -/
inductive Reachable (cfg : Config) : St → Prop
  | init : Reachable cfg initSt
  | step {s : St} (i : TickIn) : Reachable cfg s → Reachable cfg (loopTick cfg s i).1

/-- The core state invariant: the relay state is a pin level, and the
pending-action slot holds `NO_ACTION`, `FLASH_ACTION`, or the inversion of
the current relay state (never the current state itself). -/
def StInv (s : St) : Prop :=
  (s.state = LOW ∨ s.state = HIGH) ∧
    (s.needAction = NO_ACTION ∨ s.needAction = FLASH_ACTION ∨
      s.needAction = 1 - s.state)

instance (s : St) : Decidable (StInv s) := by
  unfold StInv; exact inferInstance

/-! ### Preservation of the state invariant -/

theorem setState_inv {cfg : Config} {s : St} {n : Int}
    (hn : n = LOW ∨ n = HIGH) : StInv (setState cfg s n).1 :=
  ⟨hn, Or.inl rfl⟩

theorem mqttMessageReceived_inv {cfg : Config} {s : St} {t p : String}
    (h : StInv s) : StInv (mqttMessageReceived cfg s t p).1 := by
  obtain ⟨hs, hn⟩ := h
  unfold StInv mqttMessageReceived dispatchCmd
  simp only [LOW, HIGH, NO_ACTION, FLASH_ACTION] at hs hn ⊢
  split_ifs <;> (try simp_all) <;> omega

theorem deliverMsgs_inv {cfg : Config} {s : St} {ms : List (String × String)}
    (h : StInv s) : StInv (deliverMsgs cfg s ms).1 := by
  induction ms generalizing s with
  | nil => exact h
  | cons m ms ih =>
    simpa only [deliverMsgs] using ih (mqttMessageReceived_inv h)

theorem connectPhase_inv {cfg : Config} {s : St} {i : TickIn}
    (h : StInv s) : StInv (connectPhase cfg s i).1 := by
  obtain ⟨hs, hn⟩ := h
  unfold StInv connectPhase
  split_ifs <;> exact ⟨hs, hn⟩

theorem buttonPhase_inv {cfg : Config} {s : St} {i : TickIn}
    (h : StInv s) : StInv (buttonPhase cfg s i) := by
  obtain ⟨hs, hn⟩ := h
  unfold StInv buttonPhase
  split
  · exact ⟨hs, Or.inr (Or.inr rfl)⟩
  · exact ⟨hs, hn⟩

theorem commitPhase_inv {cfg : Config} {s : St} {now : Nat}
    (h : StInv s) : StInv (commitPhase cfg s now).1 := by
  obtain ⟨hs, hn⟩ := h
  unfold StInv commitPhase setState
  simp only [LOW, HIGH, NO_ACTION, FLASH_ACTION] at hs hn ⊢
  split_ifs <;> (try simp_all) <;> omega

theorem wifiSt_inv {s : St} {i : TickIn} (h : StInv s) : StInv (wifiSt s i) := by
  obtain ⟨hs, hn⟩ := h
  unfold StInv wifiSt
  split <;> exact ⟨hs, hn⟩

theorem loopTick_inv {cfg : Config} {s : St} {i : TickIn}
    (h : StInv s) : StInv (loopTick cfg s i).1 := by
  unfold loopTick
  exact commitPhase_inv (buttonPhase_inv (connectPhase_inv (deliverMsgs_inv (wifiSt_inv h))))

theorem initSt_inv : StInv initSt := by decide

theorem reachable_inv {cfg : Config} {s : St} (h : Reachable cfg s) : StInv s := by
  induction h with
  | init => exact initSt_inv
  | step i _ ih => exact loopTick_inv ih

/-! ### Decomposition of a tick and frame lemmas -/

theorem loopTick_fst (cfg : Config) (s : St) (i : TickIn) :
    (loopTick cfg s i).1 = (commitPhase cfg (preCommitSt cfg s i) i.now2).1 := rfl

theorem loopTick_snd (cfg : Config) (s : St) (i : TickIn) :
    (loopTick cfg s i).2 =
      (deliverMsgs cfg (wifiSt s i) i.msgs).2 ++
        (connectPhase cfg (preConnectSt cfg s i) i).2 ++
        (commitPhase cfg (preCommitSt cfg s i) i.now2).2 := rfl

/-- The message handler never touches the relay state, the timers, or the
connect-request flag. -/
theorem mqttMessageReceived_keeps (cfg : Config) (s : St) (t p : String) :
    (mqttMessageReceived cfg s t p).1.state = s.state ∧
    (mqttMessageReceived cfg s t p).1.lastAction = s.lastAction ∧
    (mqttMessageReceived cfg s t p).1.needMqttConnect = s.needMqttConnect ∧
    (mqttMessageReceived cfg s t p).1.lastMqttConnectionAttempt
      = s.lastMqttConnectionAttempt := by
  unfold mqttMessageReceived dispatchCmd
  split_ifs <;> exact ⟨rfl, rfl, rfl, rfl⟩

theorem deliverMsgs_keeps (cfg : Config) (ms : List (String × String)) (s : St) :
    (deliverMsgs cfg s ms).1.state = s.state ∧
    (deliverMsgs cfg s ms).1.lastAction = s.lastAction ∧
    (deliverMsgs cfg s ms).1.needMqttConnect = s.needMqttConnect ∧
    (deliverMsgs cfg s ms).1.lastMqttConnectionAttempt
      = s.lastMqttConnectionAttempt := by
  induction ms generalizing s with
  | nil => exact ⟨rfl, rfl, rfl, rfl⟩
  | cons m ms ih =>
    obtain ⟨h1, h2, h3, h4⟩ := mqttMessageReceived_keeps cfg s m.1 m.2
    obtain ⟨g1, g2, g3, g4⟩ := ih (mqttMessageReceived cfg s m.1 m.2).1
    exact ⟨g1.trans h1, g2.trans h2, g3.trans h3, g4.trans h4⟩

/-- The reconnect section never touches the relay state, the pending
action, or the commit timestamp. -/
theorem connectPhase_keeps (cfg : Config) (s : St) (i : TickIn) :
    (connectPhase cfg s i).1.state = s.state ∧
    (connectPhase cfg s i).1.needAction = s.needAction ∧
    (connectPhase cfg s i).1.lastAction = s.lastAction := by
  unfold connectPhase
  split_ifs <;> exact ⟨rfl, rfl, rfl⟩

/-- The button sample touches only the pending-action slot. -/
theorem buttonPhase_keeps (cfg : Config) (s : St) (i : TickIn) :
    (buttonPhase cfg s i).state = s.state ∧
    (buttonPhase cfg s i).lastAction = s.lastAction ∧
    (buttonPhase cfg s i).needMqttConnect = s.needMqttConnect ∧
    (buttonPhase cfg s i).lastMqttConnectionAttempt
      = s.lastMqttConnectionAttempt := by
  unfold buttonPhase
  split_ifs <;> exact ⟨rfl, rfl, rfl, rfl⟩

/-- The commit section never touches the MQTT session fields. -/
theorem commitPhase_keeps (cfg : Config) (s : St) (now : Nat) :
    (commitPhase cfg s now).1.needMqttConnect = s.needMqttConnect ∧
    (commitPhase cfg s now).1.lastMqttConnectionAttempt
      = s.lastMqttConnectionAttempt := by
  unfold commitPhase setState
  split_ifs <;> exact ⟨rfl, rfl⟩

theorem wifiSt_keeps (s : St) (i : TickIn) :
    (wifiSt s i).state = s.state ∧
    (wifiSt s i).needAction = s.needAction ∧
    (wifiSt s i).lastAction = s.lastAction ∧
    (wifiSt s i).lastMqttConnectionAttempt = s.lastMqttConnectionAttempt := by
  unfold wifiSt
  split_ifs <;> exact ⟨rfl, rfl, rfl, rfl⟩

/-- The connect-attempt timestamp after a tick: set to the tick's first
`millis()` read when the reconnect guard fired, untouched otherwise. -/
theorem loopTick_lastAttempt (cfg : Config) (s : St) (i : TickIn) :
    (loopTick cfg s i).1.lastMqttConnectionAttempt =
      if attemptGuard (preConnectSt cfg s i) i then i.now1
      else s.lastMqttConnectionAttempt := by
  rw [loopTick_fst]
  rw [(commitPhase_keeps cfg (preCommitSt cfg s i) i.now2).2]
  unfold preCommitSt
  rw [(buttonPhase_keeps cfg (postConnectSt cfg s i) i).2.2.2]
  unfold postConnectSt connectPhase
  have hpre : (preConnectSt cfg s i).lastMqttConnectionAttempt
      = s.lastMqttConnectionAttempt := by
    unfold preConnectSt
    rw [(deliverMsgs_keeps cfg i.msgs (wifiSt s i)).2.2.2]
    exact (wifiSt_keeps s i).2.2.2
  split_ifs with h1 h2 <;> simp [hpre]

/-! ### Runs (sequences of loop iterations) -/

/-- The state after running the ticks of `is` in order from `s`. -/
def exec (cfg : Config) (s : St) (is : List TickIn) : St :=
  is.foldl (fun s i => (loopTick cfg s i).1) s

/-- The state just before tick number `n` of a run. -/
def stAt (cfg : Config) (s : St) (is : List TickIn) (n : Nat) : St :=
  exec cfg s (is.take n)

/-- Whether tick number `n` of a run performs an MQTT connect attempt
(successful or failed): the reconnect guard fires at that tick. -/
def attemptAtB (cfg : Config) (s : St) (is : List TickIn) (n : Nat) : Bool :=
  match is[n]? with
  | some i => decide (attemptGuard (preConnectSt cfg (stAt cfg s is n) i) i)
  | none => false

theorem stAt_zero (cfg : Config) (s : St) (is : List TickIn) :
    stAt cfg s is 0 = s := rfl

theorem stAt_succ {cfg : Config} {s : St} {is : List TickIn} {n : Nat}
    {i : TickIn} (hn : is[n]? = some i) :
    stAt cfg s is (n + 1) = (loopTick cfg (stAt cfg s is n) i).1 := by
  unfold stAt exec
  rw [List.take_succ, hn]
  simp [List.foldl_append]

theorem usub_eq_sub {a b : Nat} (hle : b ≤ a) (hb : a - b < U32) :
    usub a b = a - b := by
  unfold usub U32 at *
  omega

theorem usub_zero (a : Nat) : usub a 0 = a % U32 := by
  unfold usub U32
  omega

/-! ### Concrete values used to exercise the model -/

/-- A concrete validated configuration (ESP-01 build: no button). -/
def exCfg : Config :=
  { thingName := "testThing"
    ip := "10.0.0.2"
    flashDuration := 1000
    mqttQoS := 1
    mqttRetain := true
    hasButton := false }

/-- A tick on which the environment does nothing. -/
def quietTick : TickIn :=
  { wifiConnEvt := false
    msgs := []
    now1 := 0
    online := false
    mqttConnected := false
    connectSuccess := false
    now2 := 0
    buttonLow := false }

/-- A tick at 3000 ms with Wi-Fi online, no MQTT session, and a broker
that accepts the connection. -/
def connTick : TickIn :=
  { quietTick with now1 := 3000, now2 := 3000, online := true,
                   connectSuccess := true }

/-- A tick delivering the command `ON` on the action topic. -/
def onMsgTick : TickIn :=
  { quietTick with msgs := [(mqttActionTopic exCfg, "ON")] }

/-- A state with the relay ON and a FLASH pulse pending. -/
def exFlashOnSt : St := { initSt with state := HIGH, needAction := FLASH_ACTION }

/-- A state with the relay OFF and `SetOn` pending since `lastAction = 0`. -/
def exPendOnSt : St := { initSt with needAction := HIGH }

/-! ### The claims -/

/-- **C9.** Invariant kept by every operation: whenever the pending-action
slot holds a `SetOn` or `SetOff` value (`needAction` is `LOW` or `HIGH`,
as opposed to `NO_ACTION` or `FLASH_ACTION`), that value differs from the
current `RelayState`; it is established by both producers (button sampling
and the MQTT message handler) and re-established by every commit. -/
theorem pending_set_differs_from_state {cfg : Config} {s : St}
    (h : Reachable cfg s)
    (hp : s.needAction = LOW ∨ s.needAction = HIGH) :
    s.needAction ≠ s.state := by
  obtain ⟨hs, hn⟩ := reachable_inv h
  simp only [LOW, HIGH, NO_ACTION, FLASH_ACTION] at hs hn hp ⊢
  omega

theorem pending_set_differs_from_state_witness :
    ((loopTick exCfg initSt onMsgTick).1.needAction = LOW ∨
      (loopTick exCfg initSt onMsgTick).1.needAction = HIGH) ∧
    (loopTick exCfg initSt onMsgTick).1.needAction
      ≠ (loopTick exCfg initSt onMsgTick).1.state :=
  ⟨by decide,
    pending_set_differs_from_state
      (Reachable.step onMsgTick Reachable.init) (by decide)⟩

/-- **C4.** In every state the program can reach, receiving payload
`REPORT` on the action topic triggers exactly one publish, to the status
topic, and leaves the whole core state — `RelayState`, the pending-action
slot, and the last-commit timestamp — unchanged, so the debounce window is
not consumed. -/
theorem report_cmd_publishes_once_and_keeps_state {cfg : Config} {s : St}
    {topic : String} (h : Reachable cfg s)
    (ht : strEndsWith topic "action" = true) :
    (mqttMessageReceived cfg s topic "REPORT").1 = s ∧
    (mqttMessageReceived cfg s topic "REPORT").2 = [reportPub cfg s] := by
  obtain ⟨hs, hn⟩ := reachable_inv h
  simp [mqttMessageReceived, dispatchCmd, ht]
  split_ifs with h1
  · exfalso
    simp only [LOW, HIGH, NO_ACTION, FLASH_ACTION] at hs hn h1
    omega
  · exact ⟨rfl, rfl⟩

theorem report_cmd_publishes_once_and_keeps_state_witness :
    strEndsWith (mqttActionTopic exCfg) "action" = true ∧
    (mqttMessageReceived exCfg initSt (mqttActionTopic exCfg) "REPORT").1
      = initSt ∧
    (mqttMessageReceived exCfg initSt (mqttActionTopic exCfg) "REPORT").2
      = [reportPub exCfg initSt] :=
  ⟨by decide,
    report_cmd_publishes_once_and_keeps_state Reachable.init (by decide)⟩

/-- **C6.** A `SetOn` (`ON`) or `SetOff` (`OFF`) command whose target
equals the current `RelayState` is discarded as a no-op: `RelayState` is
not mutated, no publish occurs, and `lastAction` (the debounce timer) is
not updated; the pending slot ends cleared (`NO_ACTION`). -/
theorem redundant_set_command_is_noop {cfg : Config} {s : St}
    {topic : String} (ht : strEndsWith topic "action" = true) :
    (s.state = HIGH →
      (mqttMessageReceived cfg s topic "ON").1
        = { s with needAction := NO_ACTION } ∧
      (mqttMessageReceived cfg s topic "ON").2 = []) ∧
    (s.state = LOW →
      (mqttMessageReceived cfg s topic "OFF").1
        = { s with needAction := NO_ACTION } ∧
      (mqttMessageReceived cfg s topic "OFF").2 = []) := by
  constructor
  · intro hs
    simp [mqttMessageReceived, dispatchCmd, ht, hs]
  · intro hs
    simp [mqttMessageReceived, dispatchCmd, ht, hs]

theorem redundant_set_command_is_noop_witness :
    strEndsWith (mqttActionTopic exCfg) "action" = true ∧
    exFlashOnSt.state = HIGH ∧
    (mqttMessageReceived exCfg exFlashOnSt (mqttActionTopic exCfg) "ON").1
      = { exFlashOnSt with needAction := NO_ACTION } ∧
    (mqttMessageReceived exCfg exFlashOnSt (mqttActionTopic exCfg) "ON").2
      = [] :=
  ⟨by decide, by decide,
    (redundant_set_command_is_noop (by decide)).1 (by decide)⟩

/-- **C7.** In every state the program can reach, an inbound message on
the action topic whose payload is not exactly one of `ON`, `OFF`,
`TOGGLE`, `FLASH`, `REPORT` (case-sensitive) is silently ignored: the
state — `RelayState`, pending-action slot, `lastAction` — is unchanged and
nothing is published. -/
theorem unrecognized_payload_ignored {cfg : Config} {s : St}
    {topic payload : String} (h : Reachable cfg s)
    (ht : strEndsWith topic "action" = true)
    (hp : payload ≠ "ON" ∧ payload ≠ "OFF" ∧ payload ≠ "TOGGLE" ∧
      payload ≠ "FLASH" ∧ payload ≠ "REPORT") :
    mqttMessageReceived cfg s topic payload = (s, []) := by
  obtain ⟨hs, hn⟩ := reachable_inv h
  have hne : ¬ s.needAction = s.state := by
    simp only [LOW, HIGH, NO_ACTION, FLASH_ACTION] at hs hn
    omega
  simp [mqttMessageReceived, dispatchCmd, ht, hp.1, hp.2.1, hp.2.2.1,
    hp.2.2.2.1, hp.2.2.2.2, hne]

theorem unrecognized_payload_ignored_witness :
    (strEndsWith (mqttActionTopic exCfg) "action" = true ∧
      ("on" : String) ≠ "ON" ∧ ("on" : String) ≠ "OFF" ∧
      ("on" : String) ≠ "TOGGLE" ∧ ("on" : String) ≠ "FLASH" ∧
      ("on" : String) ≠ "REPORT") ∧
    mqttMessageReceived exCfg initSt (mqttActionTopic exCfg) "on"
      = (initSt, []) :=
  ⟨by decide,
    unrecognized_payload_ignored Reachable.init (by decide)
      ⟨by decide, by decide, by decide, by decide, by decide⟩⟩

/-- A run that switches the relay ON (commit at 8000 ms), then queues a
`FLASH` command and commits it at 16000 ms. -/
def flashRun : List TickIn :=
  [ onMsgTick,
    { quietTick with now2 := 8000 },
    { quietTick with msgs := [(mqttActionTopic exCfg, "FLASH")],
                     now1 := 8000, now2 := 8000 },
    { quietTick with now1 := 16000, now2 := 16000 } ]

/-- **C1, counterexample.** In the run `flashRun` the relay is ON with a
`FLASH` pending just before the last tick; committing the FlashPulse
leaves the relay OFF — not its pre-pulse value ON — and the final status
report carries `OFF`. -/
theorem flash_pulse_counterexample :
    (stAt exCfg initSt flashRun 3).state = HIGH ∧
    (stAt exCfg initSt flashRun 3).needAction = FLASH_ACTION ∧
    ACTION_FREQ_LIMIT
      < usub 16000 (stAt exCfg initSt flashRun 3).lastAction ∧
    (stAt exCfg initSt flashRun 4).state = LOW ∧
    (stAt exCfg initSt flashRun 4).state ≠ (stAt exCfg initSt flashRun 3).state ∧
    (loopTick exCfg (stAt exCfg initSt flashRun 3)
        { quietTick with now1 := 16000, now2 := 16000 }).2.getLast?
      = some { topic := mqttStatusTopic exCfg, payload := "OFF",
               retain := true, qos := 1 } := by decide

/-- **C1, amended.** After a committed FlashPulse completes, `RelayState`
is `LOW` (OFF) unconditionally — the pulse drives `HIGH` then `LOW` — and
the two status reports `ON` then `OFF` are emitted; the final state and
final report equal the pre-pulse value exactly when that value was OFF. -/
theorem flash_pulse_ends_off {cfg : Config} {s : St} {now : Nat}
    (hp : s.needAction = FLASH_ACTION)
    (hw : ACTION_FREQ_LIMIT < usub now s.lastAction) :
    (commitPhase cfg s now).1.state = LOW ∧
    (commitPhase cfg s now).2 =
      [reportPub cfg { s with state := HIGH, needAction := NO_ACTION },
       reportPub cfg { s with state := LOW, needAction := NO_ACTION }] ∧
    ((commitPhase cfg s now).1.state = s.state ↔ s.state = LOW) := by
  have hne : s.needAction ≠ NO_ACTION := by rw [hp]; decide
  unfold commitPhase setState
  rw [if_pos ⟨hne, hw⟩]
  rw [if_neg (show ¬ (0 : Int) ≤ s.needAction by rw [hp]; decide)]
  rw [if_pos hp]
  exact ⟨rfl, rfl, eq_comm⟩

/-- A state with the relay ON and a FLASH pending, last commit at 8000 ms. -/
def exFlashPendSt : St :=
  { initSt with state := HIGH, needAction := FLASH_ACTION, lastAction := 8000 }

theorem flash_pulse_ends_off_witness :
    (exFlashPendSt.needAction = FLASH_ACTION ∧
      ACTION_FREQ_LIMIT < usub 16000 exFlashPendSt.lastAction) ∧
    (commitPhase exCfg exFlashPendSt 16000).1.state = LOW ∧
    (commitPhase exCfg exFlashPendSt 16000).2 =
      [reportPub exCfg { exFlashPendSt with state := HIGH, needAction := NO_ACTION },
       reportPub exCfg { exFlashPendSt with state := LOW, needAction := NO_ACTION }] ∧
    ((commitPhase exCfg exFlashPendSt 16000).1.state = exFlashPendSt.state
      ↔ exFlashPendSt.state = LOW) :=
  ⟨⟨by decide, by decide⟩, flash_pulse_ends_off (by decide) (by decide)⟩

/-- **C5, counterexample.** With `SetOn` pending since `lastAction = 0`,
on a loop tick at exactly `now = 7000` the claim's condition
`now - lastCommitTime >= 7000` holds, yet nothing is committed: the code's
guard is strict (`ACTION_FREQ_LIMIT < now - lastAction`), so the whole
tick leaves the state unchanged and publishes nothing. -/
theorem debounce_boundary_counterexample :
    exPendOnSt.needAction ≠ NO_ACTION ∧
    ACTION_FREQ_LIMIT ≤ 7000 - exPendOnSt.lastAction ∧
    loopTick exCfg exPendOnSt { quietTick with now2 := 7000 }
      = (exPendOnSt, []) := by decide

/-- **C5, amended.** At the commit step of a loop tick with a pending
action (`SetOn`, `SetOff`, or `FlashPulse`), the action is committed if
and only if `now - lastAction` is strictly greater than
`ACTION_FREQ_LIMIT` (7000 ms, 32-bit wrap-around difference): on commit
the slot is cleared, `lastAction` is set to `now`, and a pending `SetOn`
or `SetOff` becomes the relay state; otherwise the tick's commit step
changes nothing and the pending action is held, not dropped. -/
theorem commit_iff_strict_debounce {cfg : Config} {s : St} {now : Nat}
    (hp : s.needAction = LOW ∨ s.needAction = HIGH ∨
      s.needAction = FLASH_ACTION) :
    (ACTION_FREQ_LIMIT < usub now s.lastAction →
      (commitPhase cfg s now).1.needAction = NO_ACTION ∧
      (commitPhase cfg s now).1.lastAction = now ∧
      (0 ≤ s.needAction → (commitPhase cfg s now).1.state = s.needAction)) ∧
    (¬ ACTION_FREQ_LIMIT < usub now s.lastAction →
      commitPhase cfg s now = (s, [])) := by
  constructor
  · intro hw
    have hne : s.needAction ≠ NO_ACTION := by
      simp only [LOW, HIGH, NO_ACTION, FLASH_ACTION] at hp ⊢
      omega
    unfold commitPhase setState
    rw [if_pos ⟨hne, hw⟩]
    split_ifs with h1 h2
    · exact ⟨rfl, rfl, fun _ => rfl⟩
    · exact ⟨rfl, rfl, fun hc => absurd hc h1⟩
    · exfalso
      simp only [LOW, HIGH, NO_ACTION, FLASH_ACTION] at hp h1 h2
      omega
  · intro hw
    unfold commitPhase
    rw [if_neg (fun hc => hw hc.2)]

theorem commit_iff_strict_debounce_witness :
    (exPendOnSt.needAction = LOW ∨ exPendOnSt.needAction = HIGH ∨
      exPendOnSt.needAction = FLASH_ACTION) ∧
    ((ACTION_FREQ_LIMIT < usub 8000 exPendOnSt.lastAction →
      (commitPhase exCfg exPendOnSt 8000).1.needAction = NO_ACTION ∧
      (commitPhase exCfg exPendOnSt 8000).1.lastAction = 8000 ∧
      (0 ≤ exPendOnSt.needAction →
        (commitPhase exCfg exPendOnSt 8000).1.state = exPendOnSt.needAction)) ∧
    (¬ ACTION_FREQ_LIMIT < usub 8000 exPendOnSt.lastAction →
      commitPhase exCfg exPendOnSt 8000 = (exPendOnSt, []))) :=
  ⟨by decide, commit_iff_strict_debounce (by decide)⟩

/-- **C2, counterexample.** On the tick of a successful (re)connect from
the boot state, two publishes to the status topic occur — the HELLO
greeting and then the status report — before any debounce-gated
commit-triggered publish (there is none in this tick), refuting "exactly
one publish to the status topic". -/
theorem connect_single_publish_counterexample :
    attemptGuard initSt connTick ∧ connTick.connectSuccess = true ∧
    (loopTick exCfg initSt connTick).2 =
      [helloPub exCfg,
       reportPub exCfg { initSt with lastMqttConnectionAttempt := 3000 }] ∧
    ((loopTick exCfg initSt connTick).2.filter
        (fun p => p.topic == mqttStatusTopic exCfg)).length = 2 ∧
    (helloPub exCfg).payload ≠ (reportPub exCfg
      { initSt with lastMqttConnectionAttempt := 3000 }).payload := by decide

/-- **C2, amended.** On every tick whose reconnect attempt succeeds, the
tick's publish stream is: the inbound-handler publishes, then immediately
the HELLO greeting followed by exactly one status report reflecting the
current `RelayState`, and only then any debounce-gated commit-triggered
publishes. The two connect-time publishes are emitted unconditionally
(the reconnect guard involves `lastMqttConnectionAttempt` only), hence
independent of the debounce window. -/
theorem connect_publishes_hello_then_report {cfg : Config} {s : St}
    {i : TickIn} (hg : attemptGuard (preConnectSt cfg s i) i)
    (hc : i.connectSuccess = true) :
    (loopTick cfg s i).2 =
      (deliverMsgs cfg (wifiSt s i) i.msgs).2 ++
        [helloPub cfg,
         reportPub cfg { preConnectSt cfg s i with
           lastMqttConnectionAttempt := i.now1 }] ++
        (commitPhase cfg (preCommitSt cfg s i) i.now2).2 ∧
    (reportPub cfg { preConnectSt cfg s i with
        lastMqttConnectionAttempt := i.now1 }).payload
      = stateText (preConnectSt cfg s i).state := by
  rw [loopTick_snd]
  constructor
  · unfold connectPhase
    rw [if_pos hg, if_pos hc]
  · rfl

theorem connect_publishes_hello_then_report_witness :
    (attemptGuard (preConnectSt exCfg initSt connTick) connTick ∧
      connTick.connectSuccess = true) ∧
    (loopTick exCfg initSt connTick).2 =
      (deliverMsgs exCfg (wifiSt initSt connTick) connTick.msgs).2 ++
        [helloPub exCfg,
         reportPub exCfg { preConnectSt exCfg initSt connTick with
           lastMqttConnectionAttempt := connTick.now1 }] ++
        (commitPhase exCfg (preCommitSt exCfg initSt connTick)
          connTick.now2).2 ∧
    (reportPub exCfg { preConnectSt exCfg initSt connTick with
        lastMqttConnectionAttempt := connTick.now1 }).payload
      = stateText (preConnectSt exCfg initSt connTick).state :=
  ⟨⟨by decide, by decide⟩,
    connect_publishes_hello_then_report (by decide) (by decide)⟩

/-- **C3, counterexample.** The very first publish of a successful-connect
tick goes to the status topic with the HELLO greeting payload, which is
neither `"ON"` nor `"OFF"`. -/
theorem status_payload_counterexample :
    (loopTick exCfg initSt connTick).2.head? = some (helloPub exCfg) ∧
    (helloPub exCfg).topic = mqttStatusTopic exCfg ∧
    (helloPub exCfg).payload ≠ "ON" ∧
    (helloPub exCfg).payload ≠ "OFF" := by decide

/-- Every publish the program makes goes to the status topic, with payload
either the HELLO greeting or a `report()` payload `ON`/`OFF`. -/
def GoodPub (cfg : Config) (p : Pub) : Prop :=
  p.topic = mqttStatusTopic cfg ∧
    (p.payload = helloPayload cfg ∨ p.payload = "ON" ∨ p.payload = "OFF")

instance (cfg : Config) (p : Pub) : Decidable (GoodPub cfg p) := by
  unfold GoodPub; exact inferInstance

theorem reportPub_good (cfg : Config) (s : St) : GoodPub cfg (reportPub cfg s) := by
  refine ⟨rfl, Or.inr ?_⟩
  unfold reportPub stateText
  split_ifs <;> simp

theorem helloPub_good (cfg : Config) : GoodPub cfg (helloPub cfg) :=
  ⟨rfl, Or.inl rfl⟩

theorem mqttMessageReceived_pubs_good {cfg : Config} {s : St} {t q : String}
    {p : Pub} (hp : p ∈ (mqttMessageReceived cfg s t q).2) : GoodPub cfg p := by
  unfold mqttMessageReceived dispatchCmd at hp
  split_ifs at hp <;> simp only [List.mem_singleton, List.not_mem_nil] at hp <;>
    first
      | exact absurd hp (by simp)
      | (subst hp; exact reportPub_good cfg s)

theorem deliverMsgs_pubs_good {cfg : Config} {ms : List (String × String)}
    {s : St} {p : Pub} (hp : p ∈ (deliverMsgs cfg s ms).2) : GoodPub cfg p := by
  induction ms generalizing s with
  | nil => exact absurd hp (by simp [deliverMsgs])
  | cons m ms ih =>
    unfold deliverMsgs at hp
    rcases List.mem_append.mp hp with h | h
    · exact mqttMessageReceived_pubs_good h
    · exact ih h

theorem connectPhase_pubs_good {cfg : Config} {s : St} {i : TickIn} {p : Pub}
    (hp : p ∈ (connectPhase cfg s i).2) : GoodPub cfg p := by
  unfold connectPhase at hp
  split_ifs at hp
  · rcases List.mem_cons.mp hp with h | h
    · exact h ▸ helloPub_good cfg
    · rcases List.mem_cons.mp h with h2 | h2
      · exact h2 ▸ reportPub_good cfg _
      · exact absurd h2 (List.not_mem_nil p)
  · exact absurd hp (List.not_mem_nil p)
  · exact absurd hp (List.not_mem_nil p)

theorem commitPhase_pubs_good {cfg : Config} {s : St} {now : Nat} {p : Pub}
    (hp : p ∈ (commitPhase cfg s now).2) : GoodPub cfg p := by
  unfold commitPhase setState at hp
  split_ifs at hp
  · rcases List.mem_cons.mp hp with h | h
    · exact h ▸ reportPub_good cfg _
    · exact absurd h (List.not_mem_nil p)
  · rcases List.mem_append.mp hp with h | h
    · rcases List.mem_cons.mp h with h2 | h2
      · exact h2 ▸ reportPub_good cfg _
      · exact absurd h2 (List.not_mem_nil p)
    · rcases List.mem_cons.mp h with h2 | h2
      · exact h2 ▸ reportPub_good cfg _
      · exact absurd h2 (List.not_mem_nil p)
  · exact absurd hp (List.not_mem_nil p)
  · exact absurd hp (List.not_mem_nil p)

/-- **C3, amended.** Every message the program publishes goes to the
status topic and its payload is exactly `ON`, exactly `OFF`, or the HELLO
connect greeting; the `ON`/`OFF` payloads are `report()` publishes
rendering the relay state at publish time. -/
theorem published_payloads_on_off_or_hello {cfg : Config} {s : St}
    {i : TickIn} {p : Pub} (hp : p ∈ (loopTick cfg s i).2) :
    p.topic = mqttStatusTopic cfg ∧
    (p.payload = helloPayload cfg ∨ p.payload = "ON" ∨ p.payload = "OFF") := by
  rw [loopTick_snd] at hp
  rcases List.mem_append.mp hp with h | h
  · rcases List.mem_append.mp h with h1 | h1
    · exact deliverMsgs_pubs_good h1
    · exact connectPhase_pubs_good h1
  · exact commitPhase_pubs_good h

theorem published_payloads_on_off_or_hello_witness :
    helloPub exCfg ∈ (loopTick exCfg initSt connTick).2 ∧
    ((helloPub exCfg).topic = mqttStatusTopic exCfg ∧
      ((helloPub exCfg).payload = helloPayload exCfg ∨
        (helloPub exCfg).payload = "ON" ∨ (helloPub exCfg).payload = "OFF")) :=
  ⟨by decide,
    @published_payloads_on_off_or_hello exCfg initSt connTick
      (helloPub exCfg) (by decide)⟩

/-! ### Connect-attempt timing over runs -/

theorem stAt_succ_none {cfg : Config} {s : St} {is : List TickIn} {n : Nat}
    (hn : is[n]? = none) : stAt cfg s is (n + 1) = stAt cfg s is n := by
  unfold stAt exec
  rw [List.take_succ, hn]
  simp

/-- Between two ticks, `lastMqttConnectionAttempt` still holds the
`millis()` value of the most recent attempt: once set at an attempting
tick, it is unchanged by every following non-attempting tick. -/
theorem lastAttempt_stable {cfg : Config} {s : St} {is : List TickIn}
    {j : Nat} {ij : TickIn} (hij : is[j]? = some ij)
    (hj : attemptAtB cfg s is j = true) :
    ∀ m, j + 1 ≤ m → m ≤ is.length →
      (∀ l, j < l → l < m → attemptAtB cfg s is l = false) →
      (stAt cfg s is m).lastMqttConnectionAttempt = ij.now1 := by
  intro m hm
  induction m, hm using Nat.le_induction with
  | base =>
    intro _ hnone
    rw [stAt_succ hij, loopTick_lastAttempt]
    unfold attemptAtB at hj
    rw [hij] at hj
    rw [if_pos (of_decide_eq_true hj)]
  | succ m hm ih =>
    intro hlen hnone
    have hmlt : m < is.length := by omega
    obtain ⟨im, him⟩ : ∃ im, is[m]? = some im :=
      ⟨is[m], List.getElem?_eq_getElem hmlt⟩
    rw [stAt_succ him, loopTick_lastAttempt]
    have hno : attemptAtB cfg s is m = false := hnone m (by omega) (by omega)
    unfold attemptAtB at hno
    rw [him] at hno
    rw [if_neg (of_decide_eq_false hno)]
    exact ih (by omega) (fun l h1 h2 => hnone l h1 (by omega))

/-- **C8.** For every pair of consecutive MQTT connect attempts of a run
(successful or failed — any tick at which the reconnect guard fires), the
time between the two attempts' `millis()` readings is at least
`MQTT_CONNECT_FREQ_LIMIT` (2000 ms), even under continuously disconnected
ticks (the monotone time model: the later reading is the larger one and
the run does not span a full 32-bit wrap). -/
theorem consecutive_connect_attempts_spaced {cfg : Config} {s : St}
    {is : List TickIn} {j k : Nat} {ij ik : TickIn}
    (hij : is[j]? = some ij) (hik : is[k]? = some ik) (hjk : j < k)
    (hj : attemptAtB cfg s is j = true) (hk : attemptAtB cfg s is k = true)
    (hmid : ∀ l, j < l → l < k → attemptAtB cfg s is l = false)
    (hmono : ij.now1 ≤ ik.now1) (hspan : ik.now1 - ij.now1 < U32) :
    MQTT_CONNECT_FREQ_LIMIT ≤ ik.now1 - ij.now1 := by
  have hklen : k < is.length := by
    rcases List.getElem?_eq_some_iff.mp hik with ⟨h, _⟩
    exact h
  have hlast : (stAt cfg s is k).lastMqttConnectionAttempt = ij.now1 :=
    lastAttempt_stable hij hj k (by omega) (by omega) hmid
  unfold attemptAtB at hk
  rw [hik] at hk
  have hg := of_decide_eq_true hk
  have h2 : MQTT_CONNECT_FREQ_LIMIT
      < usub ik.now1 (preConnectSt cfg (stAt cfg s is k) ik).lastMqttConnectionAttempt :=
    hg.2
  have hpre : (preConnectSt cfg (stAt cfg s is k) ik).lastMqttConnectionAttempt
      = ij.now1 := by
    unfold preConnectSt
    rw [(deliverMsgs_keeps cfg ik.msgs (wifiSt (stAt cfg s is k) ik)).2.2.2,
      (wifiSt_keeps (stAt cfg s is k) ik).2.2.2, hlast]
  rw [hpre, usub_eq_sub hmono hspan] at h2
  omega

/-- A tick at 3000 ms with Wi-Fi online and no MQTT session. -/
def attTickA : TickIn := { quietTick with now1 := 3000, online := true }

/-- A tick at 6000 ms with Wi-Fi online and no MQTT session. -/
def attTickB : TickIn := { quietTick with now1 := 6000, online := true }

/-- Two ticks under a continuously refusing broker: attempts fire at
3000 ms and 6000 ms. -/
def twoAttemptRun : List TickIn := [attTickA, attTickB]

theorem consecutive_connect_attempts_spaced_witness :
    (twoAttemptRun[0]? = some attTickA ∧ twoAttemptRun[1]? = some attTickB ∧
      attemptAtB exCfg initSt twoAttemptRun 0 = true ∧
      attemptAtB exCfg initSt twoAttemptRun 1 = true) ∧
    MQTT_CONNECT_FREQ_LIMIT ≤ attTickB.now1 - attTickA.now1 :=
  ⟨⟨by decide, by decide, by decide, by decide⟩,
    @consecutive_connect_attempts_spaced exCfg initSt twoAttemptRun 0 1
      attTickA attTickB (by decide) (by decide) (by decide) (by decide)
      (by decide) (fun l h1 h2 => absurd h2 (by omega)) (by decide)
      (by decide)⟩

/-- As long as every tick happens within the first
`MQTT_CONNECT_FREQ_LIMIT` milliseconds after boot, the connect-attempt
timestamp still holds its boot value 0 and no tick attempts a connect. -/
theorem boot_window_no_attempt {cfg : Config} {is : List TickIn}
    (hnow : ∀ i ∈ is, i.now1 ≤ MQTT_CONNECT_FREQ_LIMIT) :
    ∀ n, (stAt cfg initSt is n).lastMqttConnectionAttempt = 0 ∧
      attemptAtB cfg initSt is n = false := by
  have hguard : ∀ (st : St) (i : TickIn), i ∈ is →
      st.lastMqttConnectionAttempt = 0 →
      ¬ attemptGuard (preConnectSt cfg st i) i := by
    intro st i hmem hzero hg
    have hpre : (preConnectSt cfg st i).lastMqttConnectionAttempt = 0 := by
      unfold preConnectSt
      rw [(deliverMsgs_keeps cfg i.msgs (wifiSt st i)).2.2.2,
        (wifiSt_keeps st i).2.2.2, hzero]
    have h2 := hg.2
    rw [hpre, usub_zero] at h2
    have h3 := hnow i hmem
    unfold MQTT_CONNECT_FREQ_LIMIT at h2 h3
    unfold U32 at h2
    omega
  intro n
  induction n with
  | zero =>
    refine ⟨rfl, ?_⟩
    unfold attemptAtB
    cases h0 : is[0]? with
    | none => rfl
    | some i =>
      have hmem : i ∈ is := by
        rcases List.getElem?_eq_some_iff.mp h0 with ⟨hlt, he⟩
        exact he ▸ List.getElem_mem hlt
      rw [stAt_zero]
      exact decide_eq_false (hguard initSt i hmem rfl)
  | succ n ih =>
    obtain ⟨ihz, ihatt⟩ := ih
    have hz : (stAt cfg initSt is (n + 1)).lastMqttConnectionAttempt = 0 := by
      cases hn : is[n]? with
      | none => rw [stAt_succ_none hn]; exact ihz
      | some i =>
        rw [stAt_succ hn, loopTick_lastAttempt]
        unfold attemptAtB at ihatt
        rw [hn] at ihatt
        rw [if_neg (of_decide_eq_false ihatt)]
        exact ihz
    refine ⟨hz, ?_⟩
    unfold attemptAtB
    cases hn1 : is[n + 1]? with
    | none => rfl
    | some i =>
      have hmem : i ∈ is := by
        rcases List.getElem?_eq_some_iff.mp hn1 with ⟨hlt, he⟩
        exact he ▸ List.getElem_mem hlt
      exact decide_eq_false (hguard _ i hmem hz)

/-- **C10.** Because `lastMqttConnectionAttempt` is initialized to 0, a
run from boot in which every `millis()` reading is at most
`MQTT_CONNECT_FREQ_LIMIT` (2000 ms) performs no MQTT connect attempt at
any tick — even with the network layer online and a connect requested. -/
theorem no_connect_attempt_in_first_window {cfg : Config} {is : List TickIn}
    (hnow : ∀ i ∈ is, i.now1 ≤ MQTT_CONNECT_FREQ_LIMIT) (n : Nat) :
    attemptAtB cfg initSt is n = false :=
  (boot_window_no_attempt hnow n).2

/-- A boot tick at 1500 ms with Wi-Fi online and a connect requested. -/
def earlyOnlineTick : TickIn :=
  { quietTick with wifiConnEvt := true, online := true, now1 := 1500,
                   now2 := 1500 }

theorem no_connect_attempt_in_first_window_witness :
    (∀ i ∈ [earlyOnlineTick], i.now1 ≤ MQTT_CONNECT_FREQ_LIMIT) ∧
    attemptAtB exCfg initSt [earlyOnlineTick] 0 = false :=
  ⟨by decide, no_connect_attempt_in_first_window (by decide) 0⟩

end MqttRelay
